import Mathlib

/-!
Verification of the bmpmod backward mass-modelling code.

This file gives a shallow embedding, over `ℚ`, of the inference engine of
the repository (`massmod/fit_temperature.py` and `massmod/posterior_mcmc.py`)
and proves properties of it.

Modelling conventions:
* Machine floats are modelled by `ℚ`; division by zero is the Lean total
  division (`x / 0 = 0`), which never arises in the properties proved.
* External numerical routines that the repository calls but does not define
  (`scipy.integrate.quad`, the mass-model functions of `mass_models.py`, the
  density-model functions of `density_models.py`, `calc_rhocrit` of `gen.py`,
  `np.log`) are abstracted as function fields of an `ExtFn` record: every
  theorem is proved for all possible behaviours of these externals unless it
  says otherwise.
* Physical constants (`defaultparams.uconv`, `defaultparams.params`, `np.pi`,
  `cosmo.overdensity`) are abstract rationals bundled in records.
* Python functions that can fall off the end (returning `None`) or raise are
  modelled with `Option`; `none` is the fall-through / error outcome.
* The effect "a quadrature call was made while handling index rr" is made
  explicit: `Tmodel_func` returns, next to the list of fitted temperatures,
  the list of loop indices for which `scipy.integrate.quad` was invoked.
-/

/-- Extended rational: a float that is either `-inf` or finite.  The code
only ever produces `0.0` or `-np.inf` from `lnprior`, and sums of finite
values elsewhere, so this two-constructor type is exact. -/
inductive ERat where
  | neginf : ERat
  | val (q : ℚ) : ERat
deriving DecidableEq

/-- `np.isfinite` on the values `lnprior` can produce. -/
def ERat.isfinite : ERat → Bool
  | ERat.neginf => false
  | ERat.val _ => true

/-- An observed radial profile as produced by `set_prof_data` (astropy table
with columns `radius`, the profile value, and its error).  For the
temperature profile the value column is `tspec`. -/
structure ProfData where
  radius : List ℚ
  tspec : List ℚ
  tspec_err : List ℚ
deriving DecidableEq

/-- The gas density model dictionary produced by `fit_density`: kind tag,
best-fit parameters, and the fitted density at each observed radius. -/
structure NeModel where
  type : String
  parvals : List ℚ
  nefit : List ℚ
deriving DecidableEq

/-- The cluster metadata dictionary (`set_meta` / the `cluster` dictionary of
`posterior_mcmc.py`).  `incl_mstar` / `count_mstar` are the 0/1 integer flags
used by the source. -/
structure ClusterMeta where
  z : ℚ
  refindex : ℕ
  incl_mstar : ℕ
  incl_mgas : ℕ
  count_mstar : ℕ
deriving DecidableEq

/-- Physical constants and unit conversions (`defaultparams.uconv`,
`params.mu`, `np.pi`).  They are abstract rationals: no property below
depends on their numerical values. -/
structure UConst where
  mu : ℚ
  mA : ℚ
  G : ℚ
  joule_kev : ℚ
  Msun_kg : ℚ
  kpc_m : ℚ
  cm_m : ℚ
  cm_kpc : ℚ
  Msun : ℚ
  pi : ℚ

/-- External functions the repository imports but does not define in the
analysed sources: the mass models of `mass_models.py`, the density models of
`density_models.py`, `calc_rhocrit`/`cosmo.overdensity` of `gen.py`, the
quadrature routine `scipy.integrate.quad` (first component of its result),
and `np.log`.  `quad` takes an `Option`-valued integrand because the Python
integrand `intmodel` can return `None` on an unrecognised model tag. -/
structure ExtFn where
  nfw_mass_model : ℚ → ℚ → ℚ → ℚ → ℚ
  sersic_mass_model : ℚ → ℚ → ClusterMeta → ℚ
  gas_mass_model : ℚ → NeModel → ℚ
  mgas_intmodel : ℚ → NeModel → ℚ
  betamodel : List ℚ → ℚ → ℚ
  cuspedbetamodel : List ℚ → ℚ → ℚ
  doublebetamodel : List ℚ → ℚ → ℚ
  doublebetamodel_tied : List ℚ → ℚ → ℚ
  quad : (ℚ → Option ℚ) → ℚ → ℚ → ℚ
  calc_rhocrit : ℚ → ℚ
  overdensity : ℚ
  log : ℚ → ℚ

/-- The free-parameter bounds of `defaultparams.params`, the default values
of the keyword arguments of `lnprior`. -/
structure PriorBounds where
  c_boundmin : ℚ
  c_boundmax : ℚ
  rs_boundmin : ℚ
  rs_boundmax : ℚ
  normsersic_boundmin : ℚ
  normsersic_boundmax : ℚ

/-- `intmodel(nemodel, rs, c, normsersic, r_arr, clustermeta)` of
`fit_temperature.py`: the integrand `ρ_gas * M_tot / r²`.  Falls through
(returns `None`) when the density-model tag matches no branch. -/
def intmodel (E : ExtFn) (U : UConst) (nemodel : NeModel) (rs c normsersic : ℚ)
    (r_arr : ℚ) (clustermeta : ClusterMeta) : Option ℚ :=
  let Mtot0 := E.nfw_mass_model r_arr c rs clustermeta.z
  let Mtot1 := if clustermeta.incl_mstar = 1
    then Mtot0 + E.sersic_mass_model r_arr normsersic clustermeta else Mtot0
  let Mtot := if clustermeta.incl_mgas = 1
    then Mtot1 + E.gas_mass_model r_arr nemodel else Mtot1
  if nemodel.type = "single_beta" then
    some (E.betamodel nemodel.parvals r_arr * ((1 / U.Msun) * U.cm_kpc ^ (-3 : ℤ))
      * Mtot / r_arr ^ 2)
  else if nemodel.type = "cusped_beta" then
    some (E.cuspedbetamodel nemodel.parvals r_arr * ((1 / U.Msun) * U.cm_kpc ^ (-3 : ℤ))
      * Mtot / r_arr ^ 2)
  else if nemodel.type = "double_beta" then
    some (E.doublebetamodel nemodel.parvals r_arr * ((1 / U.Msun) * U.cm_kpc ^ (-3 : ℤ))
      * Mtot / r_arr ^ 2)
  else if nemodel.type = "double_beta_tied" then
    some (E.doublebetamodel_tied nemodel.parvals r_arr * ((1 / U.Msun) * U.cm_kpc ^ (-3 : ℤ))
      * Mtot / r_arr ^ 2)
  else none

/-- `Tmodel_func` of `fit_temperature.py`.  First component: the list
`tfit_arr` of model temperatures, one per row of `tspec_data`.  Second
component: the instrumentation — the loop indices `rr` for which
`scipy.integrate.quad` was called (the reference index hits `continue`
before the quadrature). -/
def Tmodel_func (E : ExtFn) (U : UConst) (_ne_data : ProfData) (tspec_data : ProfData)
    (nemodel : NeModel) (clustermeta : ClusterMeta) (c rs normsersic : ℚ) :
    List ℚ × List ℕ :=
  let ne_ref := nemodel.nefit.getD clustermeta.refindex 0
  let tspec_ref := tspec_data.tspec.getD clustermeta.refindex 0
  let radius_ref := tspec_data.radius.getD clustermeta.refindex 0
  let n := tspec_data.radius.length
  (((List.range n).map fun rr =>
      if rr = clustermeta.refindex then tspec_data.tspec.getD rr 0
      else
        let radius_selected := tspec_data.radius.getD rr 0
        let ne_selected := nemodel.nefit.getD rr 0
        let intfunc := fun x => intmodel E U nemodel rs c normsersic x clustermeta
        let finfac_t := (U.mu * U.mA * U.G) / (ne_selected * U.cm_m ^ (-3 : ℤ))
        tspec_ref * ne_ref / ne_selected
          - U.joule_kev * finfac_t * U.Msun_kg ^ 2 * U.kpc_m ^ (-4 : ℤ)
            * E.quad intfunc radius_ref radius_selected),
    (List.range n).filter (fun rr => rr ≠ clustermeta.refindex))

/-- `lnlike(theta, x, y, yerr, ne_data, tspec_data, nemodel, clustermeta)` of
`fit_temperature.py`.  `none` models the Python exceptions on a theta whose
length does not match the unpacking branch chosen by `incl_mstar`, or on an
`incl_mstar` flag outside {0,1} (where `normsersic` would be unbound). -/
def lnlike (E : ExtFn) (U : UConst) (theta : List ℚ) (_x : List ℚ) (y yerr : List ℚ)
    (ne_data tspec_data : ProfData) (nemodel : NeModel) (clustermeta : ClusterMeta) :
    Option ℚ :=
  let unpack : Option (ℚ × ℚ × ℚ) :=
    if clustermeta.incl_mstar = 1 then
      match theta with
      | [c, rs, normsersic] => some (c, rs, normsersic)
      | _ => none
    else if clustermeta.incl_mstar = 0 then
      match theta with
      | [c, rs] => some (c, rs, 0)
      | _ => none
    else none
  match unpack with
  | none => none
  | some (c, rs, normsersic) =>
    let model := (Tmodel_func E U ne_data tspec_data nemodel clustermeta c rs normsersic).1
    some (-(1/2) * (((List.range y.length).map fun i =>
        (y.getD i 0 - model.getD i 0) ^ 2 / (yerr.getD i 0) ^ 2
          + E.log (2 * U.pi * (yerr.getD i 0) ^ 2)).sum))

/-- `lnprior(theta, ...)` of `fit_temperature.py`.  The source tests
`len(theta) == 3`, then `len(theta) == 2`, with strict inequalities on both
bound ends, and falls off the end (Python `None`, modelled `none`) for any
other length. -/
def lnprior (P : PriorBounds) (theta : List ℚ) : Option ERat :=
  match theta with
  | [c, rs, normsersic] =>
    if P.c_boundmin < c ∧ c < P.c_boundmax
        ∧ P.rs_boundmin < rs ∧ rs < P.rs_boundmax
        ∧ P.normsersic_boundmin < normsersic ∧ normsersic < P.normsersic_boundmax then
      some (ERat.val 0)
    else some ERat.neginf
  | [c, rs] =>
    if P.c_boundmin < c ∧ c < P.c_boundmax
        ∧ P.rs_boundmin < rs ∧ rs < P.rs_boundmax then
      some (ERat.val 0)
    else some ERat.neginf
  | _ => none

/-- `lnprob(theta, x, y, yerr, ...)` of `fit_temperature.py`, instrumented:
the `Bool` records whether `lnlike` was evaluated.  When `lnprior` returns
`None` the source feeds it to `np.isfinite`, which raises, hence `none`
with `lnlike` not evaluated. -/
def lnprob (E : ExtFn) (U : UConst) (P : PriorBounds) (theta : List ℚ)
    (x : List ℚ) (y yerr : List ℚ) (ne_data tspec_data : ProfData)
    (nemodel : NeModel) (clustermeta : ClusterMeta) : Option ERat × Bool :=
  match lnprior P theta with
  | none => (none, false)
  | some ERat.neginf => (some ERat.neginf, false)
  | some (ERat.val lp) =>
    match lnlike E U theta x y yerr ne_data tspec_data nemodel clustermeta with
    | none => (none, true)
    | some ll => (some (ERat.val (lp + ll)), true)

/-- Python `int()` on a float: truncation toward zero.  For a rational this
is T-division of numerator by denominator. -/
def pyInt (q : ℚ) : ℤ :=
  q.num / (q.den : ℤ)

/-- The state recomputed at every radius probed by `calc_rdelta_p` of
`posterior_mcmc.py`: the three mass terms, their total, and the variable
named `ratio` in the source (here `odfrac`), the mean enclosed density in
units of the critical density. -/
structure MassState where
  mass_nfw : ℚ
  mass_dev : ℚ
  mass_gas : ℚ
  mass_tot : ℚ
  odfrac : ℚ
deriving DecidableEq

/-- The body of one mass evaluation of `calc_rdelta_p` at trial radius `r`
(source lines 55-66 and, identically, 75-86).  Note the gas integrand passed
to `scipy.integrate.quad`: the source lambda is `lambda x:
mgas_intmodel(r, nemodel)`, which ignores the integration variable `x` and
is translated literally here. -/
def massesAt (E : ExtFn) (U : UConst) (nemodel : NeModel) (cluster : ClusterMeta)
    (c rs normsersic : ℚ) (r : ℚ) : MassState :=
  let mass_nfw := E.nfw_mass_model r c rs cluster.z
  let mass_dev := if cluster.count_mstar = 1
    then E.sersic_mass_model r normsersic cluster * U.Msun else 0
  let mass_gas := E.quad (fun _x => some (E.mgas_intmodel r nemodel)) 0 r * U.Msun
  let mass_tot := mass_nfw + mass_dev + mass_gas
  let rho_crit := E.calc_rhocrit cluster.z
  { mass_nfw := mass_nfw
    mass_dev := mass_dev
    mass_gas := mass_gas
    mass_tot := mass_tot
    odfrac := (mass_tot / ((4/3) * U.pi * r ^ 3)) / rho_crit }

/-- The gas integrand actually constructed by `calc_rdelta_p` (source lines
60 and 80): `intfunc = lambda x: mgas_intmodel(rdelta, nemodel)` — the
bound variable `x` is unused. -/
def intfunc_p (E : ExtFn) (nemodel : NeModel) (rdelta : ℚ) : ℚ → ℚ :=
  fun _x => E.mgas_intmodel rdelta nemodel

/-- Modelled from the spec: the density-model gas-mass integrand that the
spec says is integrated from 0 to the trial radius, i.e. `mgas_intmodel`
evaluated at the integration variable. -/
def intfunc_spec (E : ExtFn) (nemodel : NeModel) : ℚ → ℚ :=
  fun x => E.mgas_intmodel x nemodel

/-- The `while ratio > cosmo.overdensity` loop of `calc_rdelta_p` (source
lines 71-86), with explicit fuel since the source loop has no iteration
bound.  `r` is `rdelta_tot` and `st` the state computed at the most recent
evaluation; `none` means the loop has not finished within `fuel`
iterations. -/
def rdelta_loop (E : ExtFn) (U : UConst) (nemodel : NeModel) (cluster : ClusterMeta)
    (c rs normsersic : ℚ) : ℕ → ℤ → MassState → Option (ℤ × MassState)
  | 0, r, st =>
    if st.odfrac > E.overdensity then none else some (r, st)
  | fuel' + 1, r, st =>
    if st.odfrac > E.overdensity then
      rdelta_loop E U nemodel cluster c rs normsersic fuel' (r + 1)
        (massesAt E U nemodel cluster c rs normsersic (((r + 1 : ℤ) : ℚ)))
    else some (r, st)

/-- `calc_rdelta_p(row, nemodel, cluster)` of `posterior_mcmc.py`.  Seeds at
`rdelta_dm = c*rs`, evaluates the masses there, truncates the trial radius
to `int(rdelta_dm)`, then runs the while loop; the returned tuple is
`(rdelta_tot, mass_tot/Msun, mass_nfw/Msun, mass_dev/Msun, mass_gas/Msun)`.
`none`: either `count_mstar` is outside {0,1} (unbound `normsersic` /
`mass_dev`, a Python NameError) or the fuel ran out (the source loop is
still running). -/
def calc_rdelta_p (E : ExtFn) (U : UConst) (fuel : ℕ) (row : List ℚ)
    (nemodel : NeModel) (cluster : ClusterMeta) : Option (ℤ × ℚ × ℚ × ℚ × ℚ) :=
  let c := row.getD 0 0
  let rs := row.getD 1 0
  if cluster.count_mstar = 1 ∨ cluster.count_mstar = 0 then
    let normsersic := if cluster.count_mstar = 1 then row.getD 2 0 else 0
    let rdelta_dm := c * rs
    let st0 := massesAt E U nemodel cluster c rs normsersic rdelta_dm
    match rdelta_loop E U nemodel cluster c rs normsersic fuel (pyInt rdelta_dm) st0 with
    | none => none
    | some (r, st) =>
      some (r, st.mass_tot / U.Msun, st.mass_nfw / U.Msun,
        st.mass_dev / U.Msun, st.mass_gas / U.Msun)
  else none

/-- The radius search of `calc_rdelta_p` never terminates on the given
input: no amount of fuel makes the source's unguarded while loop exit. -/
def calc_rdelta_diverges (E : ExtFn) (U : UConst) (row : List ℚ)
    (nemodel : NeModel) (cluster : ClusterMeta) : Prop :=
  ∀ fuel : ℕ, calc_rdelta_p E U fuel row nemodel cluster = none

/-- The dimensionality branch of `fit_mcmc` (source lines 405-408):
`ndim = 3` when `incl_mstar == 1`, `ndim = 2` when `incl_mstar == 0`,
otherwise `ndim` is unbound (NameError downstream). -/
def mcmc_ndim (incl_mstar : ℕ) : Option ℕ :=
  if incl_mstar = 1 then some 3
  else if incl_mstar = 0 then some 2
  else none

/-- The sample extraction of `fit_mcmc` (source line 432):
`sampler.chain[:, Nburnin:, :].reshape((-1, ndim))`.  The emcee chain is
walker-major: `chain` is a list of walkers, each a list of per-step theta
vectors; dropping the first `Nburnin` steps of every walker and
concatenating is exactly the slice-and-reshape. -/
def fit_mcmc_samples (chain : List (List (List ℚ))) (Nburnin : ℕ) :
    List (List ℚ) :=
  (chain.map (fun walker => walker.drop Nburnin)).flatten

/-- Modelled from the spec: NumPy's linear-interpolation percentile
(`np.percentile`, external to the repository).  Sort, take
`h = (n-1)*p/100`, and interpolate linearly between the order statistics at
`floor h` and `floor h + 1`.  (`pyInt` is the floor here: `h` is
nonnegative for `n ≥ 1` and `0 ≤ p`.) -/
def percentile (p : ℚ) (xs : List ℚ) : ℚ :=
  let s := xs.insertionSort (· ≤ ·)
  let h := ((s.length : ℚ) - 1) * p / 100
  let i := (pyInt h).toNat
  let lo := s.getD i 0
  let hi := s.getD (i + 1) lo
  lo + (h - (i : ℚ)) * (hi - lo)

/-- Column `j` of a row-major sample matrix. -/
def col (m : List (List ℚ)) (j : ℕ) : List ℚ :=
  m.map (fun row => row.getD j 0)

/-- Modelled from the spec: one row of `np.percentile(m, ps, axis=0)` — the
per-column percentiles at a single requested percentile `p`.  The column
count of a NumPy row-major matrix is the length of its first row. -/
def pctRow (m : List (List ℚ)) (p : ℚ) : List ℚ :=
  (List.range (m.headD []).length).map (fun j => percentile p (col m j))

/-- The `lambda v: (v[1], v[2]-v[1], v[1]-v[0])` of `samples_results`
applied to a `(p16, (p50, p84))` tuple. -/
def errTriple (v : ℚ × ℚ × ℚ) : ℚ × ℚ × ℚ :=
  (v.2.1, v.2.2 - v.2.1, v.2.1 - v.1)

/-- The `map(lambda v: ..., zip(*np.percentile(m, [16, 50, 84], axis=0)))`
pipeline of `samples_results`: per-column `(median, +err, -err)` triples.
Python's `zip` of the three percentile rows is the nested `List.zip`. -/
def quantityTriples (m : List (List ℚ)) : List (ℚ × ℚ × ℚ) :=
  (((pctRow m 16).zip ((pctRow m 50).zip (pctRow m 84)))).map errTriple

/-- Modelled from the spec: the per-quantity summary triple
`(median, 84th − median, median − 16th)` over one scalar's samples. -/
def specTriple (xs : List ℚ) : ℚ × ℚ × ℚ :=
  (percentile 50 xs, percentile 84 xs - percentile 50 xs,
    percentile 50 xs - percentile 16 xs)

/-- The `mcmc_results` dictionary built by `samples_results`; the
`normsersic` and `mstars` keys are present only in the stellar-mass
configuration, hence `Option`. -/
structure McmcResults where
  c : ℚ × ℚ × ℚ
  rs : ℚ × ℚ × ℚ
  rdelta : ℚ × ℚ × ℚ
  mdelta : ℚ × ℚ × ℚ
  mdm : ℚ × ℚ × ℚ
  mgas : ℚ × ℚ × ℚ
  normsersic : Option (ℚ × ℚ × ℚ)
  mstars : Option (ℚ × ℚ × ℚ)
deriving DecidableEq

/-- `samples_results(samples, samples_aux, cluster)` of
`posterior_mcmc.py`.  The source unpacks exactly 3 (resp. 2) per-parameter
triples from `samples` depending on `count_mstar`, and always exactly 5
triples from `samples_aux`; any other arity raises (`none`), as does a
`count_mstar` outside {0,1} (unbound `c_mcmc`, a NameError at the print). -/
def samples_results (samples samples_aux : List (List ℚ))
    (cluster : ClusterMeta) : Option McmcResults :=
  if cluster.count_mstar = 1 then
    match quantityTriples samples, quantityTriples samples_aux with
    | [cT, rsT, nsT], [rdeltaT, mdeltaT, mdmT, mstarsT, mgasT] =>
      some { c := cT, rs := rsT, rdelta := rdeltaT, mdelta := mdeltaT,
             mdm := mdmT, mgas := mgasT, normsersic := some nsT,
             mstars := some mstarsT }
    | _, _ => none
  else if cluster.count_mstar = 0 then
    match quantityTriples samples, quantityTriples samples_aux with
    | [cT, rsT], [rdeltaT, mdeltaT, mdmT, mstarsT, mgasT] =>
      some { c := cT, rs := rsT, rdelta := rdeltaT, mdelta := mdeltaT,
             mdm := mdmT, mgas := mgasT, normsersic := none,
             mstars := none }
    | _, _ => none
  else none

/-! ### Concrete fixtures used by the closed-form theorems below -/

/-- External functions all returning 0 (quadrature included), critical
density 1, overdensity 500, `np.log` stubbed to 0. -/
def extZero : ExtFn where
  nfw_mass_model := fun _ _ _ _ => 0
  sersic_mass_model := fun _ _ _ => 0
  gas_mass_model := fun _ _ => 0
  mgas_intmodel := fun _ _ => 0
  betamodel := fun _ _ => 0
  cuspedbetamodel := fun _ _ => 0
  doublebetamodel := fun _ _ => 0
  doublebetamodel_tied := fun _ _ => 0
  quad := fun _ _ _ => 0
  calc_rhocrit := fun _ => 1
  overdensity := 500
  log := fun _ => 0

/-- All conversion constants 1, `np.pi` stand-in 3. -/
def uconstOne : UConst where
  mu := 1
  mA := 1
  G := 1
  joule_kev := 1
  Msun_kg := 1
  kpc_m := 1
  cm_m := 1
  cm_kpc := 1
  Msun := 1
  pi := 3

/-- Example bounds: c, rs in (1, 10), normsersic in (-10, 10). -/
def boundsEx : PriorBounds where
  c_boundmin := 1
  c_boundmax := 10
  rs_boundmin := 1
  rs_boundmax := 10
  normsersic_boundmin := -10
  normsersic_boundmax := 10

/-- A three-point density model fit. -/
def neEx : NeModel := { type := "single_beta", parvals := [1], nefit := [2, 3, 4] }

/-- A three-point temperature profile. -/
def profEx : ProfData := { radius := [1, 2, 3], tspec := [5, 6, 7], tspec_err := [1, 1, 1] }

/-- A one-point temperature profile (its only index is the reference). -/
def prof1 : ProfData := { radius := [10], tspec := [5], tspec_err := [1] }

/-- A one-point density model fit. -/
def ne1 : NeModel := { type := "single_beta", parvals := [1], nefit := [2] }

/-- Metadata: reference index 1, no stellar mass, no gas mass. -/
def cmEx : ClusterMeta := { z := 0, refindex := 1, incl_mstar := 0, incl_mgas := 0, count_mstar := 0 }

/-- Metadata: reference index 0, no stellar mass, no gas mass. -/
def cm0 : ClusterMeta := { z := 0, refindex := 0, incl_mstar := 0, incl_mgas := 0, count_mstar := 0 }

/-- External functions where `mgas_intmodel` returns its radius argument:
enough to separate the code's gas integrand from the spec's. -/
def extId : ExtFn := { extZero with mgas_intmodel := fun r _ => r }

/-- External functions whose NFW mass grows like `10 r³`, making the mean
overdensity a constant `5/2` above the overdensity target 1 at every
positive radius: the radius search can never succeed. -/
def ext7 : ExtFn := { extZero with nfw_mass_model := fun r _ _ _ => 10 * r ^ 3, overdensity := 1 }

/-- The mass state `calc_rdelta_p` computes at an integer trial radius of
its while loop. -/
def probeAt (E : ExtFn) (U : UConst) (nemodel : NeModel) (cluster : ClusterMeta)
    (c rs normsersic : ℚ) (r : ℤ) : MassState :=
  massesAt E U nemodel cluster c rs normsersic (r : ℚ)

/-- The `normsersic` value `calc_rdelta_p` reads from a sample row: the
third entry when stellar mass is counted, 0 otherwise. -/
def rowNormsersic (cluster : ClusterMeta) (row : List ℚ) : ℚ :=
  if cluster.count_mstar = 1 then row.getD 2 0 else 0

/-- The mass state `calc_rdelta_p` computes at its seed radius
`rdelta_dm = c * rs` (a float, not yet truncated). -/
def seedState (E : ExtFn) (U : UConst) (nemodel : NeModel) (cluster : ClusterMeta)
    (row : List ℚ) : MassState :=
  massesAt E U nemodel cluster (row.getD 0 0) (row.getD 1 0) (rowNormsersic cluster row)
    (row.getD 0 0 * row.getD 1 0)

/-- The mass state `calc_rdelta_p` computes at integer trial radius `r`,
with the free parameters read from the sample row. -/
def probeState (E : ExtFn) (U : UConst) (nemodel : NeModel) (cluster : ClusterMeta)
    (row : List ℚ) (r : ℤ) : MassState :=
  probeAt E U nemodel cluster (row.getD 0 0) (row.getD 1 0) (rowNormsersic cluster row) r

/-! ### C1: the reference index anchors the temperature model -/

/-- C1: for every theta and every temperature profile, the predicted
temperature list of `Tmodel_func` equals, at the reference index of
`clustermeta`, exactly the observed temperature at that index; and no
quadrature call is made for that index (the instrumentation list of
quad-calling indices excludes it).  Holds for every quadrature oracle. -/
theorem C1_Tmodel_refindex_anchor (E : ExtFn) (U : UConst) (ne_data tspec_data : ProfData)
    (nemodel : NeModel) (clustermeta : ClusterMeta) (c rs normsersic : ℚ)
    (href : clustermeta.refindex < tspec_data.radius.length) :
    (Tmodel_func E U ne_data tspec_data nemodel clustermeta c rs normsersic).1.getD
        clustermeta.refindex 0 = tspec_data.tspec.getD clustermeta.refindex 0
    ∧ clustermeta.refindex
        ∉ (Tmodel_func E U ne_data tspec_data nemodel clustermeta c rs normsersic).2 := by
  constructor
  · simp only [Tmodel_func]
    rw [List.getD_eq_getElem?_getD, List.getElem?_map, List.getElem?_range href]
    simp
  · simp [Tmodel_func, List.mem_filter]

/-- Witness for C1 at a concrete profile with reference index 1. -/
theorem C1_Tmodel_refindex_anchor_witness :
    (Tmodel_func extZero uconstOne profEx profEx neEx cmEx 5 300 0).1.getD cmEx.refindex 0
      = profEx.tspec.getD cmEx.refindex 0
    ∧ cmEx.refindex ∉ (Tmodel_func extZero uconstOne profEx profEx neEx cmEx 5 300 0).2 :=
  C1_Tmodel_refindex_anchor extZero uconstOne profEx profEx neEx cmEx 5 300 0 (by decide)

/-! ### C2: the prior bounds are open on both ends, not half-open -/

/-- C2 counterexample: with bounds `c in [1, 10)` in the claim's half-open
reading, `theta = [1, 5]` has every component inside its bound (c equals
its lower bound), so the claim asserts prior 0; the code returns `-inf`
because its comparisons are strict on both ends. -/
theorem C2_lnprior_counterexample :
    lnprior boundsEx [1, 5] = some ERat.neginf
    ∧ some ERat.neginf ≠ some (ERat.val 0) := by
  constructor
  · simp [lnprior, boundsEx]
  · simp

/-- C2 (amended): `lnprior` returns exactly 0 when every component lies
strictly inside its open `(min, max)` bound, and exactly `-inf` when at
least one component lies on or outside a bound — for length-2 and length-3
theta alike. -/
theorem C2_lnprior_bounds (P : PriorBounds) (c rs ns : ℚ) :
    ((P.c_boundmin < c ∧ c < P.c_boundmax
        ∧ P.rs_boundmin < rs ∧ rs < P.rs_boundmax) →
      lnprior P [c, rs] = some (ERat.val 0))
    ∧ ((c ≤ P.c_boundmin ∨ P.c_boundmax ≤ c
        ∨ rs ≤ P.rs_boundmin ∨ P.rs_boundmax ≤ rs) →
      lnprior P [c, rs] = some ERat.neginf)
    ∧ ((P.c_boundmin < c ∧ c < P.c_boundmax
        ∧ P.rs_boundmin < rs ∧ rs < P.rs_boundmax
        ∧ P.normsersic_boundmin < ns ∧ ns < P.normsersic_boundmax) →
      lnprior P [c, rs, ns] = some (ERat.val 0))
    ∧ ((c ≤ P.c_boundmin ∨ P.c_boundmax ≤ c
        ∨ rs ≤ P.rs_boundmin ∨ P.rs_boundmax ≤ rs
        ∨ ns ≤ P.normsersic_boundmin ∨ P.normsersic_boundmax ≤ ns) →
      lnprior P [c, rs, ns] = some ERat.neginf) := by
  refine ⟨?_, ?_, ?_, ?_⟩
  · rintro ⟨h1, h2, h3, h4⟩
    simp [lnprior, h1, h2, h3, h4]
  · intro h
    have hno : ¬(P.c_boundmin < c ∧ c < P.c_boundmax
        ∧ P.rs_boundmin < rs ∧ rs < P.rs_boundmax) := by
      rintro ⟨h1, h2, h3, h4⟩
      rcases h with h | h | h | h <;> linarith
    simp [lnprior, hno]
  · rintro ⟨h1, h2, h3, h4, h5, h6⟩
    simp [lnprior, h1, h2, h3, h4, h5, h6]
  · intro h
    have hno : ¬(P.c_boundmin < c ∧ c < P.c_boundmax
        ∧ P.rs_boundmin < rs ∧ rs < P.rs_boundmax
        ∧ P.normsersic_boundmin < ns ∧ ns < P.normsersic_boundmax) := by
      rintro ⟨h1, h2, h3, h4, h5, h6⟩
      rcases h with h | h | h | h | h | h <;> linarith
    simp [lnprior, hno]

/-- Witness for C2: strictly-inside length-2 theta gets 0; length-3 theta
with the stellar component on its upper bound gets `-inf`. -/
theorem C2_lnprior_bounds_witness :
    lnprior boundsEx [2, 5] = some (ERat.val 0)
    ∧ lnprior boundsEx [2, 5, 10] = some ERat.neginf := by
  constructor
  · exact (C2_lnprior_bounds boundsEx 2 5 0).1 (by norm_num [boundsEx])
  · exact (C2_lnprior_bounds boundsEx 2 5 10).2.2.2 (by norm_num [boundsEx])

/-! ### C10: the prior silently returns None on other theta lengths -/

/-- C10 counterexample: on a length-1 theta the code does not report any
error — `lnprior` falls off the end of the function and silently returns
Python `None` (modelled `none`), the very behaviour the claim says is
replaced by a ConfigurationError. -/
theorem C10_lnprior_counterexample :
    lnprior boundsEx [5] = none := rfl

/-- C10 (amended): for every theta whose length is neither 2 nor 3,
`lnprior` silently returns `None`; no error of any kind is raised. -/
theorem C10_lnprior_other_length (P : PriorBounds) (theta : List ℚ)
    (h2 : theta.length ≠ 2) (h3 : theta.length ≠ 3) :
    lnprior P theta = none := by
  match theta with
  | [] => rfl
  | [a] => rfl
  | [a, b] => exact absurd rfl h2
  | [a, b, c] => exact absurd rfl h3
  | a :: b :: c :: d :: rest => rfl

/-- Witness for C10 at a length-4 theta. -/
theorem C10_lnprior_other_length_witness :
    lnprior boundsEx [1, 2, 3, 4] = none :=
  C10_lnprior_other_length boundsEx [1, 2, 3, 4] (by decide) (by decide)

/-! ### C5: the posterior short-circuits on an out-of-bounds prior -/

/-- C5: for every theta of length 2 or 3, when `lnprior` is `-inf` the
posterior is `-inf` and `lnlike` is not evaluated (the instrumentation flag
is `false`), for every likelihood the data could induce; when `lnprior` is
finite the posterior is exactly `lnprior + lnlike`. -/
theorem C5_lnprob_shortcircuit (E : ExtFn) (U : UConst) (P : PriorBounds)
    (theta x y yerr : List ℚ) (ne_data tspec_data : ProfData)
    (nemodel : NeModel) (clustermeta : ClusterMeta)
    (hlen : theta.length = 2 ∨ theta.length = 3) :
    (lnprior P theta = some ERat.neginf →
      lnprob E U P theta x y yerr ne_data tspec_data nemodel clustermeta
        = (some ERat.neginf, false))
    ∧ (∀ lp ll, lnprior P theta = some (ERat.val lp) →
        lnlike E U theta x y yerr ne_data tspec_data nemodel clustermeta = some ll →
        lnprob E U P theta x y yerr ne_data tspec_data nemodel clustermeta
          = (some (ERat.val (lp + ll)), true)) := by
  constructor
  · intro h
    simp [lnprob, h]
  · intro lp ll h hl
    simp [lnprob, h, hl]

/-- Witness for C5: out-of-bounds theta gives `(-inf, likelihood not
evaluated)`; in-bounds theta gives prior + likelihood with the likelihood
evaluated. -/
theorem C5_lnprob_shortcircuit_witness :
    lnprob extZero uconstOne boundsEx [0, 5] prof1.radius prof1.tspec prof1.tspec_err
        prof1 prof1 ne1 cm0 = (some ERat.neginf, false)
    ∧ lnprob extZero uconstOne boundsEx [2, 5] prof1.radius prof1.tspec prof1.tspec_err
        prof1 prof1 ne1 cm0 = (some (ERat.val (0 + 0)), true) := by
  have hlike : lnlike extZero uconstOne [2, 5] prof1.radius prof1.tspec prof1.tspec_err
      prof1 prof1 ne1 cm0 = some 0 := by
    have hr : List.range 1 = [0] := rfl
    simp [lnlike, Tmodel_func, prof1, ne1, cm0, extZero, uconstOne, hr]
  constructor
  · exact (C5_lnprob_shortcircuit extZero uconstOne boundsEx [0, 5] prof1.radius
      prof1.tspec prof1.tspec_err prof1 prof1 ne1 cm0 (Or.inl rfl)).1
      (by simp [lnprior, boundsEx])
  · exact (C5_lnprob_shortcircuit extZero uconstOne boundsEx [2, 5] prof1.radius
      prof1.tspec prof1.tspec_err prof1 prof1 ne1 cm0 (Or.inl rfl)).2 0 0
      (by norm_num [lnprior, boundsEx]) hlike

/-! ### C6: shape of the flattened post-burn-in sample set -/

/-- The post-burn-in sample count of a single walker list. -/
theorem fit_mcmc_samples_length (chain : List (List (List ℚ))) (Nburnin Nsteps : ℕ)
    (hs : ∀ w ∈ chain, w.length = Nsteps) :
    (fit_mcmc_samples chain Nburnin).length = chain.length * (Nsteps - Nburnin) := by
  induction chain with
  | nil => simp [fit_mcmc_samples]
  | cons w ws ih =>
    have hw : w.length = Nsteps := hs w (List.mem_cons_self w ws)
    have ih' := ih (fun u hu => hs u (List.mem_cons_of_mem w hu))
    simp only [fit_mcmc_samples, List.map_cons, List.flatten_cons, List.length_append,
      List.length_drop, hw] at ih' ⊢
    rw [ih', List.length_cons, Nat.succ_mul, Nat.add_comm]

/-- C6: for every walker count, step count and burn-in with
`Nburnin ≤ Nsteps`, the flattened array produced by the `fit_mcmc` slice
has exactly `Nwalkers * (Nsteps - Nburnin)` rows, each a theta vector of
the dimensionality selected by the stellar-mass flag (3 with stellar mass,
2 without). -/
theorem C6_fit_mcmc_shape (incl_mstar ndim Nwalkers Nsteps Nburnin : ℕ)
    (chain : List (List (List ℚ)))
    (hnd : mcmc_ndim incl_mstar = some ndim)
    (hw : chain.length = Nwalkers)
    (hs : ∀ w ∈ chain, w.length = Nsteps)
    (hrow : ∀ w ∈ chain, ∀ t ∈ w, t.length = ndim)
    (hb : Nburnin ≤ Nsteps) :
    (fit_mcmc_samples chain Nburnin).length = Nwalkers * (Nsteps - Nburnin)
    ∧ (∀ t ∈ fit_mcmc_samples chain Nburnin, t.length = ndim)
    ∧ (incl_mstar = 1 → ndim = 3) ∧ (incl_mstar = 0 → ndim = 2) := by
  refine ⟨?_, ?_, ?_, ?_⟩
  · rw [fit_mcmc_samples_length chain Nburnin Nsteps hs, hw]
  · intro t ht
    rcases List.mem_flatten.mp ht with ⟨l, hl, htl⟩
    rcases List.mem_map.mp hl with ⟨w, hwmem, rfl⟩
    exact hrow w hwmem t (List.drop_subset Nburnin w htl)
  · intro h1
    rw [h1] at hnd
    simpa [mcmc_ndim] using hnd.symm
  · intro h0
    rw [h0] at hnd
    simpa [mcmc_ndim] using hnd.symm

/-- Witness for C6: 2 walkers, 2 steps, burn-in 1, no stellar mass. -/
theorem C6_fit_mcmc_shape_witness :
    (fit_mcmc_samples [[[1, 2], [3, 4]], [[5, 6], [7, 8]]] 1).length = 2 * (2 - 1)
    ∧ (∀ t ∈ fit_mcmc_samples [[[1, 2], [3, 4]], [[5, 6], [7, 8]]] 1, t.length = 2)
    ∧ ((0 : ℕ) = 1 → (2 : ℕ) = 3) ∧ ((0 : ℕ) = 0 → (2 : ℕ) = 2) :=
  C6_fit_mcmc_shape 0 2 2 2 1 [[[1, 2], [3, 4]], [[5, 6], [7, 8]]]
    (by decide) (by decide) (by decide) (by decide) (by decide)

/-! ### C8: burn-in equal to the step count -/

/-- C8 counterexample: with 2 walkers, 2 steps and burn-in 2, the slice
returns the empty sample list as an ordinary value — no ConfigurationError
(or any error) interrupts the pipeline, which proceeds with it. -/
theorem C8_burnin_counterexample :
    fit_mcmc_samples [[[1, 2], [3, 4]], [[5, 6], [7, 8]]] 2 = [] := rfl

/-- C8 (amended): when the burn-in count equals the per-walker step count,
the MCMC stage yields an empty sample set, silently returned to the caller;
neither `fit_mcmc` nor the example pipeline raises a ConfigurationError. -/
theorem C8_burnin_empty (chain : List (List (List ℚ))) (Nsteps : ℕ)
    (hs : ∀ w ∈ chain, w.length = Nsteps) :
    fit_mcmc_samples chain Nsteps = [] := by
  have h : (fit_mcmc_samples chain Nsteps).length = chain.length * (Nsteps - Nsteps) :=
    fit_mcmc_samples_length chain Nsteps Nsteps hs
  rw [Nat.sub_self, Nat.mul_zero] at h
  exact List.length_eq_zero.mp h

/-- Witness for C8: one walker with three steps, burn-in three. -/
theorem C8_burnin_empty_witness :
    fit_mcmc_samples [[[1], [2], [3]]] 3 = [] :=
  C8_burnin_empty [[[1], [2], [3]]] 3 (by decide)

/-! ### C4: the gas-mass integrand ignores the integration variable -/

/-- C4 (code bug): the integrand the code hands to `scipy.integrate.quad`
for the gas mass term is constant in the integration variable — the source
lambda `lambda x: mgas_intmodel(rdelta, nemodel)` evaluates the
density-model integrand at the fixed trial radius instead of at `x` — so
the gas term is not the quadrature of `mgas_intmodel(x)` over
`x in (0, trial radius)` as the claim states.  Concretely, with
`mgas_intmodel` the identity in its radius argument and trial radius 2:
the code's integrand gives 2 at `x = 1` where the claimed integrand gives
1, the two integrands are unequal, and `massesAt`'s gas term is exactly
the quadrature of the constant integrand. -/
theorem C4_gas_integrand_constant :
    intfunc_p extId neEx 2 1 = 2
    ∧ intfunc_spec extId neEx 1 = 1
    ∧ intfunc_p extId neEx 2 ≠ intfunc_spec extId neEx
    ∧ (massesAt extId uconstOne neEx cm0 1 1 0 2).mass_gas
        = extId.quad (fun x => some (intfunc_p extId neEx 2 x)) 0 2 * uconstOne.Msun := by
  refine ⟨rfl, rfl, ?_, rfl⟩
  intro h
  have h1 := congrFun h 1
  norm_num [intfunc_p, intfunc_spec, extId, extZero] at h1

/-! ### C3 and C7: the radius search loop -/

/-- Characterization of the while loop of `calc_rdelta_p`: a successful
exit either happened before any iteration (the incoming state already
satisfies the overdensity condition, and the incoming radius is returned
untouched), or after `k ≥ 1` unit increments, with the exit state the one
recomputed at `r + k`, the condition failing there for the first time
among the probed integer radii. -/
theorem rdelta_loop_sound (E : ExtFn) (U : UConst) (nemodel : NeModel)
    (cluster : ClusterMeta) (c rs ns : ℚ) :
    ∀ (fuel : ℕ) (r r' : ℤ) (st st' : MassState),
      rdelta_loop E U nemodel cluster c rs ns fuel r st = some (r', st') →
      (st.odfrac ≤ E.overdensity ∧ r' = r ∧ st' = st)
      ∨ (∃ k : ℕ, 0 < k ∧ r' = r + k
          ∧ st' = probeAt E U nemodel cluster c rs ns (r + k)
          ∧ st'.odfrac ≤ E.overdensity
          ∧ E.overdensity < st.odfrac
          ∧ ∀ j : ℕ, 0 < j → j < k →
              E.overdensity < (probeAt E U nemodel cluster c rs ns (r + j)).odfrac) := by
  intro fuel
  induction fuel with
  | zero =>
    intro r r' st st' h
    by_cases hc : st.odfrac > E.overdensity
    · rw [rdelta_loop, if_pos hc] at h
      exact absurd h (by simp)
    · rw [rdelta_loop, if_neg hc] at h
      simp only [Option.some.injEq, Prod.mk.injEq] at h
      exact Or.inl ⟨le_of_not_lt hc, h.1.symm, h.2.symm⟩
  | succ n ih =>
    intro r r' st st' h
    by_cases hc : st.odfrac > E.overdensity
    · rw [rdelta_loop, if_pos hc] at h
      rcases ih (r + 1) r' (probeAt E U nemodel cluster c rs ns (r + 1)) st' h with
        ⟨hle, hr, hst⟩ | ⟨k, hk, hr, hst, hle, hgt, hmid⟩
      · refine Or.inr ⟨1, one_pos, ?_, ?_, ?_, hc, ?_⟩
        · rw [hr]; push_cast; ring
        · rw [Nat.cast_one]; exact hst
        · rw [hst]; exact hle
        · intro j hj hj1; omega
      · refine Or.inr ⟨k + 1, Nat.succ_pos k, ?_, ?_, hle, hc, ?_⟩
        · rw [hr]; push_cast; ring
        · rw [hst]; congr 1; push_cast; ring
        · intro j hj hjk
          rcases j with _ | m
          · omega
          · rcases m with _ | m'
            · have hcast : (r + ((1 : ℕ) : ℤ)) = r + 1 := by push_cast; ring
              rw [hcast]
              exact hgt
            · have h2 : 0 < m' + 1 := Nat.succ_pos m'
              have h3 : m' + 1 < k := by omega
              have hcast : (r + ((m' + 2 : ℕ) : ℤ)) = (r + 1) + ((m' + 1 : ℕ) : ℤ) := by
                push_cast; ring
              rw [hcast]
              exact hmid (m' + 1) h2 h3
    · rw [rdelta_loop, if_neg hc] at h
      simp only [Option.some.injEq, Prod.mk.injEq] at h
      exact Or.inl ⟨le_of_not_lt hc, h.1.symm, h.2.symm⟩

/-- C3 (amended): whenever `calc_rdelta_p` returns, its radius search
evaluated the masses first at the float seed `c*rs`; if the overdensity
condition already held there the returned radius is the *truncation*
`int(c*rs)` (not the seed that was evaluated); otherwise the trial radius
is the truncation plus `k` unit increments for some `k ≥ 1`, the returned
radius is the first such integer radius where the recomputed ratio falls
to or below the target, and every strictly earlier incremented radius had
ratio above the target. -/
theorem C3_rdelta_search (E : ExtFn) (U : UConst) (fuel : ℕ) (row : List ℚ)
    (nemodel : NeModel) (cluster : ClusterMeta) (out : ℤ × ℚ × ℚ × ℚ × ℚ)
    (h : calc_rdelta_p E U fuel row nemodel cluster = some out) :
    ((seedState E U nemodel cluster row).odfrac ≤ E.overdensity
      ∧ out.1 = pyInt (row.getD 0 0 * row.getD 1 0))
    ∨ (∃ k : ℕ, 0 < k
        ∧ out.1 = pyInt (row.getD 0 0 * row.getD 1 0) + k
        ∧ (probeState E U nemodel cluster row out.1).odfrac ≤ E.overdensity
        ∧ E.overdensity < (seedState E U nemodel cluster row).odfrac
        ∧ ∀ j : ℕ, 0 < j → j < k →
            E.overdensity
              < (probeState E U nemodel cluster row
                  (pyInt (row.getD 0 0 * row.getD 1 0) + j)).odfrac) := by
  by_cases hcount : cluster.count_mstar = 1 ∨ cluster.count_mstar = 0
  · rw [calc_rdelta_p] at h
    rw [if_pos hcount] at h
    have h' : (match rdelta_loop E U nemodel cluster (row.getD 0 0) (row.getD 1 0)
          (rowNormsersic cluster row) fuel (pyInt (row.getD 0 0 * row.getD 1 0))
          (seedState E U nemodel cluster row) with
        | none => (none : Option (ℤ × ℚ × ℚ × ℚ × ℚ))
        | some (r, st) => some (r, st.mass_tot / U.Msun, st.mass_nfw / U.Msun,
            st.mass_dev / U.Msun, st.mass_gas / U.Msun)) = some out := h
    cases hloop : rdelta_loop E U nemodel cluster (row.getD 0 0) (row.getD 1 0)
        (rowNormsersic cluster row) fuel (pyInt (row.getD 0 0 * row.getD 1 0))
        (seedState E U nemodel cluster row) with
    | none =>
      rw [hloop] at h'
      exact absurd h' (by simp)
    | some rst =>
      obtain ⟨r1, st1⟩ := rst
      rw [hloop] at h'
      have hout : out.1 = r1 := (congrArg Prod.fst (Option.some.inj h')).symm
      rcases rdelta_loop_sound E U nemodel cluster (row.getD 0 0) (row.getD 1 0)
          (rowNormsersic cluster row) fuel (pyInt (row.getD 0 0 * row.getD 1 0)) r1
          (seedState E U nemodel cluster row) st1 hloop with
        ⟨hle, hr, _⟩ | ⟨k, hk, hr, hst, hle, hgt, hmid⟩
      · exact Or.inl ⟨hle, by rw [hout, hr]⟩
      · refine Or.inr ⟨k, hk, by rw [hout, hr], ?_, hgt, ?_⟩
        · rw [hout, hr]
          have hps : probeState E U nemodel cluster row
              (pyInt (row.getD 0 0 * row.getD 1 0) + k)
                = probeAt E U nemodel cluster (row.getD 0 0) (row.getD 1 0)
                  (rowNormsersic cluster row) (pyInt (row.getD 0 0 * row.getD 1 0) + k) := rfl
          rw [hps, ← hst]
          exact hle
        · intro j hj hjk
          exact hmid j hj hjk
  · rw [calc_rdelta_p] at h
    rw [if_neg hcount] at h
    exact absurd h (by simp)

/-- The while loop exits immediately, returning the incoming radius and
state, when the incoming state already satisfies the condition — for any
fuel. -/
theorem rdelta_loop_exit (E : ExtFn) (U : UConst) (nemodel : NeModel)
    (cluster : ClusterMeta) (c rs ns : ℚ) (fuel : ℕ) (r : ℤ) (st : MassState)
    (h : ¬ st.odfrac > E.overdensity) :
    rdelta_loop E U nemodel cluster c rs ns fuel r st = some (r, st) := by
  cases fuel with
  | zero => rw [rdelta_loop, if_neg h]
  | succ n => rw [rdelta_loop, if_neg h]

/-- With the all-zero externals every mass and the overdensity fraction
vanish at every radius. -/
theorem extZero_massesAt (c rs ns r : ℚ) :
    massesAt extZero uconstOne neEx cm0 c rs ns r = ⟨0, 0, 0, 0, 0⟩ := by
  simp only [massesAt, extZero, uconstOne, cm0, MassState.mk.injEq]
  norm_num

/-- C3 counterexample: with every mass zero, the seed `c*rs = 1 * (5/2)`
already satisfies the overdensity condition, the loop body never runs, and
`calc_rdelta_p` returns radius `int(5/2) = 2` — which is not the last
evaluated trial radius: the only radius evaluated was the seed `5/2`. -/
theorem C3_rdelta_search_counterexample :
    calc_rdelta_p extZero uconstOne 1 [1, 5/2] neEx cm0 = some (2, 0, 0, 0, 0)
    ∧ ((2 : ℤ) : ℚ) ≠ (1 : ℚ) * (5/2) := by
  have h52 : ((1 : ℚ) * (5/2)) = (⟨5, 2, by decide, by decide⟩ : ℚ) := by
    rw [Rat.mk'_eq_divInt, Rat.divInt_eq_div]; norm_num
  have hpy : pyInt ((1 : ℚ) * (5/2)) = 2 := by rw [h52]; decide
  have hseed : seedState extZero uconstOne neEx cm0 [1, (5/2 : ℚ)] = ⟨0, 0, 0, 0, 0⟩ :=
    extZero_massesAt _ _ _ _
  have h0 : ¬ (seedState extZero uconstOne neEx cm0 [1, (5/2 : ℚ)]).odfrac
      > extZero.overdensity := by
    rw [hseed]
    norm_num [extZero]
  constructor
  · show (match rdelta_loop extZero uconstOne neEx cm0 (List.getD [1, (5/2 : ℚ)] 0 0)
        (List.getD [1, (5/2 : ℚ)] 1 0) (rowNormsersic cm0 [1, (5/2 : ℚ)]) 1
        (pyInt (List.getD [1, (5/2 : ℚ)] 0 0 * List.getD [1, (5/2 : ℚ)] 1 0))
        (seedState extZero uconstOne neEx cm0 [1, (5/2 : ℚ)]) with
      | none => (none : Option (ℤ × ℚ × ℚ × ℚ × ℚ))
      | some (r, st) => some (r, st.mass_tot / uconstOne.Msun, st.mass_nfw / uconstOne.Msun,
          st.mass_dev / uconstOne.Msun, st.mass_gas / uconstOne.Msun))
      = some (2, 0, 0, 0, 0)
    rw [rdelta_loop_exit extZero uconstOne neEx cm0 (List.getD [1, (5/2 : ℚ)] 0 0)
      (List.getD [1, (5/2 : ℚ)] 1 0) (rowNormsersic cm0 [1, (5/2 : ℚ)]) 1
      (pyInt (List.getD [1, (5/2 : ℚ)] 0 0 * List.getD [1, (5/2 : ℚ)] 1 0))
      (seedState extZero uconstOne neEx cm0 [1, (5/2 : ℚ)]) h0]
    rw [hseed]
    simp only [List.getD_cons_zero, List.getD_cons_succ]
    rw [hpy]
    norm_num [uconstOne]
  · intro h
    rw [show ((2 : ℤ) : ℚ) = (2 : ℚ) by push_cast; ring] at h
    norm_num at h

/-- Witness for C3 at a returning run: seed `2*3 = 6`, all masses zero, so
the seed branch of the characterization fires with returned radius
`int(6) = 6`. -/
theorem C3_rdelta_search_witness :
    ((seedState extZero uconstOne neEx cm0 [2, 3]).odfrac ≤ extZero.overdensity
      ∧ (6 : ℤ) = pyInt ((2 : ℚ) * 3))
    ∨ (∃ k : ℕ, 0 < k
        ∧ (6 : ℤ) = pyInt ((2 : ℚ) * 3) + k
        ∧ (probeState extZero uconstOne neEx cm0 [2, 3] 6).odfrac ≤ extZero.overdensity
        ∧ extZero.overdensity < (seedState extZero uconstOne neEx cm0 [2, 3]).odfrac
        ∧ ∀ j : ℕ, 0 < j → j < k →
            extZero.overdensity
              < (probeState extZero uconstOne neEx cm0 [2, 3]
                  (pyInt ((2 : ℚ) * 3) + j)).odfrac) := by
  have h6 : ((2 : ℚ) * 3) = 6 := by norm_num
  have hpy : pyInt ((2 : ℚ) * 3) = 6 := by
    rw [h6]
    simp [pyInt, Rat.num_ofNat, Rat.den_ofNat]
  have hseed : seedState extZero uconstOne neEx cm0 [2, (3 : ℚ)] = ⟨0, 0, 0, 0, 0⟩ :=
    extZero_massesAt _ _ _ _
  have h0 : ¬ (seedState extZero uconstOne neEx cm0 [2, (3 : ℚ)]).odfrac
      > extZero.overdensity := by
    rw [hseed]
    norm_num [extZero]
  have hcalc : calc_rdelta_p extZero uconstOne 1 [2, 3] neEx cm0 = some (6, 0, 0, 0, 0) := by
    show (match rdelta_loop extZero uconstOne neEx cm0 (List.getD [2, (3 : ℚ)] 0 0)
        (List.getD [2, (3 : ℚ)] 1 0) (rowNormsersic cm0 [2, (3 : ℚ)]) 1
        (pyInt (List.getD [2, (3 : ℚ)] 0 0 * List.getD [2, (3 : ℚ)] 1 0))
        (seedState extZero uconstOne neEx cm0 [2, (3 : ℚ)]) with
      | none => (none : Option (ℤ × ℚ × ℚ × ℚ × ℚ))
      | some (r, st) => some (r, st.mass_tot / uconstOne.Msun, st.mass_nfw / uconstOne.Msun,
          st.mass_dev / uconstOne.Msun, st.mass_gas / uconstOne.Msun))
      = some (6, 0, 0, 0, 0)
    rw [rdelta_loop_exit extZero uconstOne neEx cm0 (List.getD [2, (3 : ℚ)] 0 0)
      (List.getD [2, (3 : ℚ)] 1 0) (rowNormsersic cm0 [2, (3 : ℚ)]) 1
      (pyInt (List.getD [2, (3 : ℚ)] 0 0 * List.getD [2, (3 : ℚ)] 1 0))
      (seedState extZero uconstOne neEx cm0 [2, (3 : ℚ)]) h0]
    rw [hseed]
    simp only [List.getD_cons_zero, List.getD_cons_succ]
    rw [hpy]
    norm_num [uconstOne]
  exact C3_rdelta_search extZero uconstOne 1 [2, 3] neEx cm0 (6, 0, 0, 0, 0) hcalc

/-- If the incoming state is above the overdensity target and every later
integer trial radius also evaluates above it, the while loop never exits:
it returns `none` whatever the fuel. -/
theorem rdelta_loop_gt_none (E : ExtFn) (U : UConst) (nemodel : NeModel)
    (cluster : ClusterMeta) (c rs ns : ℚ) :
    ∀ (fuel : ℕ) (r : ℤ) (st : MassState),
      E.overdensity < st.odfrac →
      (∀ k : ℕ, 0 < k →
        E.overdensity < (probeAt E U nemodel cluster c rs ns (r + k)).odfrac) →
      rdelta_loop E U nemodel cluster c rs ns fuel r st = none := by
  intro fuel
  induction fuel with
  | zero =>
    intro r st h _
    rw [rdelta_loop, if_pos h]
  | succ n ih =>
    intro r st h hall
    rw [rdelta_loop, if_pos h]
    refine ih (r + 1) _ ?_ ?_
    · have h1 := hall 1 one_pos
      rw [Nat.cast_one] at h1
      exact h1
    · intro k hk
      have h2 := hall (k + 1) (Nat.succ_pos k)
      have hcast : (r + ((k + 1 : ℕ) : ℤ)) = (r + 1) + (k : ℤ) := by push_cast; ring
      rw [hcast] at h2
      exact h2

/-- With the `ext7` externals the overdensity fraction is the constant
`5/2` at every positive radius: total mass `10 r³` against a sphere factor
`(4/3)·3·r³ = 4 r³` and critical density 1. -/
theorem ext7_odfrac (c rs ns r : ℚ) (hr : 0 < r) :
    (massesAt ext7 uconstOne neEx cm0 c rs ns r).odfrac = 5/2 := by
  have h3 : r ^ 3 ≠ 0 := pow_ne_zero _ (ne_of_gt hr)
  simp only [massesAt, ext7, extZero, uconstOne, cm0]
  norm_num
  field_simp
  ring

/-- C7 (amended): the radius search of `calc_rdelta_p` has no maximum
iteration guard: on any input whose overdensity fraction stays above the
target at the seed and at every incremented integer radius, the loop runs
forever — `calc_rdelta_p` returns within no fuel bound, and no
`DivergentSearchError` (which does not exist in the repository) is ever
raised. -/
theorem C7_no_iteration_guard (E : ExtFn) (U : UConst) (row : List ℚ)
    (nemodel : NeModel) (cluster : ClusterMeta)
    (h0 : E.overdensity < (seedState E U nemodel cluster row).odfrac)
    (hall : ∀ k : ℕ, 0 < k →
      E.overdensity < (probeState E U nemodel cluster row
        (pyInt (row.getD 0 0 * row.getD 1 0) + k)).odfrac) :
    calc_rdelta_diverges E U row nemodel cluster := by
  intro fuel
  by_cases hcount : cluster.count_mstar = 1 ∨ cluster.count_mstar = 0
  · rw [calc_rdelta_p, if_pos hcount]
    have hnone : rdelta_loop E U nemodel cluster (row.getD 0 0) (row.getD 1 0)
        (rowNormsersic cluster row) fuel (pyInt (row.getD 0 0 * row.getD 1 0))
        (seedState E U nemodel cluster row) = none :=
      rdelta_loop_gt_none E U nemodel cluster (row.getD 0 0) (row.getD 1 0)
        (rowNormsersic cluster row) fuel (pyInt (row.getD 0 0 * row.getD 1 0))
        (seedState E U nemodel cluster row) h0 hall
    show (match rdelta_loop E U nemodel cluster (row.getD 0 0) (row.getD 1 0)
        (rowNormsersic cluster row) fuel (pyInt (row.getD 0 0 * row.getD 1 0))
        (seedState E U nemodel cluster row) with
      | none => (none : Option (ℤ × ℚ × ℚ × ℚ × ℚ))
      | some (r, st) => some (r, st.mass_tot / U.Msun, st.mass_nfw / U.Msun,
          st.mass_dev / U.Msun, st.mass_gas / U.Msun)) = none
    rw [hnone]
  · rw [calc_rdelta_p, if_neg hcount]

/-- C7 counterexample: at `theta = (2, 3)` with the `ext7` externals the
overdensity fraction is `5/2 > 1` at the seed and at every incremented
radius, so the radius search of `calc_rdelta_p` never terminates — there
is no iteration guard and no error is raised; the claim that the search
terminates on every input is false. -/
theorem C7_unguarded_counterexample :
    calc_rdelta_diverges ext7 uconstOne [2, 3] neEx cm0 := by
  have hpy : pyInt (List.getD [2, (3 : ℚ)] 0 0 * List.getD [2, (3 : ℚ)] 1 0) = 6 := by
    simp only [List.getD_cons_zero, List.getD_cons_succ]
    rw [show ((2 : ℚ) * 3) = 6 by norm_num]
    simp [pyInt, Rat.num_ofNat, Rat.den_ofNat]
  intro fuel
  have hcount : cm0.count_mstar = 1 ∨ cm0.count_mstar = 0 := Or.inr rfl
  rw [calc_rdelta_p, if_pos hcount]
  have h0 : ext7.overdensity < (seedState ext7 uconstOne neEx cm0 [2, (3 : ℚ)]).odfrac := by
    have hv := ext7_odfrac (List.getD [2, (3 : ℚ)] 0 0) (List.getD [2, (3 : ℚ)] 1 0)
      (rowNormsersic cm0 [2, (3 : ℚ)])
      (List.getD [2, (3 : ℚ)] 0 0 * List.getD [2, (3 : ℚ)] 1 0)
      (by simp only [List.getD_cons_zero, List.getD_cons_succ]; norm_num)
    rw [show (seedState ext7 uconstOne neEx cm0 [2, (3 : ℚ)]).odfrac
        = (massesAt ext7 uconstOne neEx cm0 (List.getD [2, (3 : ℚ)] 0 0)
          (List.getD [2, (3 : ℚ)] 1 0) (rowNormsersic cm0 [2, (3 : ℚ)])
          (List.getD [2, (3 : ℚ)] 0 0 * List.getD [2, (3 : ℚ)] 1 0)).odfrac from rfl, hv]
    norm_num [ext7, extZero]
  have hall : ∀ k : ℕ, 0 < k →
      ext7.overdensity < (probeAt ext7 uconstOne neEx cm0 (List.getD [2, (3 : ℚ)] 0 0)
        (List.getD [2, (3 : ℚ)] 1 0) (rowNormsersic cm0 [2, (3 : ℚ)])
        (pyInt (List.getD [2, (3 : ℚ)] 0 0 * List.getD [2, (3 : ℚ)] 1 0) + k)).odfrac := by
    intro k hk
    have hrpos : (0 : ℚ)
        < ((pyInt (List.getD [2, (3 : ℚ)] 0 0 * List.getD [2, (3 : ℚ)] 1 0) + k : ℤ) : ℚ) := by
      rw [hpy]
      push_cast
      positivity
    have hv := ext7_odfrac (List.getD [2, (3 : ℚ)] 0 0) (List.getD [2, (3 : ℚ)] 1 0)
      (rowNormsersic cm0 [2, (3 : ℚ)])
      (((pyInt (List.getD [2, (3 : ℚ)] 0 0 * List.getD [2, (3 : ℚ)] 1 0) + k : ℤ) : ℚ)) hrpos
    rw [show (probeAt ext7 uconstOne neEx cm0 (List.getD [2, (3 : ℚ)] 0 0)
        (List.getD [2, (3 : ℚ)] 1 0) (rowNormsersic cm0 [2, (3 : ℚ)])
        (pyInt (List.getD [2, (3 : ℚ)] 0 0 * List.getD [2, (3 : ℚ)] 1 0) + k)).odfrac
        = (massesAt ext7 uconstOne neEx cm0 (List.getD [2, (3 : ℚ)] 0 0)
          (List.getD [2, (3 : ℚ)] 1 0) (rowNormsersic cm0 [2, (3 : ℚ)])
          (((pyInt (List.getD [2, (3 : ℚ)] 0 0 * List.getD [2, (3 : ℚ)] 1 0) + k : ℤ) : ℚ))).odfrac
        from rfl, hv]
    norm_num [ext7, extZero]
  have hnone := rdelta_loop_gt_none ext7 uconstOne neEx cm0 (List.getD [2, (3 : ℚ)] 0 0)
    (List.getD [2, (3 : ℚ)] 1 0) (rowNormsersic cm0 [2, (3 : ℚ)]) fuel
    (pyInt (List.getD [2, (3 : ℚ)] 0 0 * List.getD [2, (3 : ℚ)] 1 0))
    (seedState ext7 uconstOne neEx cm0 [2, (3 : ℚ)]) h0 hall
  show (match rdelta_loop ext7 uconstOne neEx cm0 (List.getD [2, (3 : ℚ)] 0 0)
      (List.getD [2, (3 : ℚ)] 1 0) (rowNormsersic cm0 [2, (3 : ℚ)]) fuel
      (pyInt (List.getD [2, (3 : ℚ)] 0 0 * List.getD [2, (3 : ℚ)] 1 0))
      (seedState ext7 uconstOne neEx cm0 [2, (3 : ℚ)]) with
    | none => (none : Option (ℤ × ℚ × ℚ × ℚ × ℚ))
    | some (r, st) => some (r, st.mass_tot / uconstOne.Msun, st.mass_nfw / uconstOne.Msun,
        st.mass_dev / uconstOne.Msun, st.mass_gas / uconstOne.Msun)) = none
  rw [hnone]

/-- Witness for C7 at `theta = (1, 7)` with the `ext7` externals: both
hypotheses of the no-guard theorem hold concretely and the search
diverges. -/
theorem C7_no_iteration_guard_witness :
    calc_rdelta_diverges ext7 uconstOne [1, 7] neEx cm0 := by
  have hpy : pyInt (List.getD [1, (7 : ℚ)] 0 0 * List.getD [1, (7 : ℚ)] 1 0) = 7 := by
    simp only [List.getD_cons_zero, List.getD_cons_succ]
    rw [show ((1 : ℚ) * 7) = 7 by norm_num]
    simp [pyInt, Rat.num_ofNat, Rat.den_ofNat]
  apply C7_no_iteration_guard
  · have hv := ext7_odfrac (List.getD [1, (7 : ℚ)] 0 0) (List.getD [1, (7 : ℚ)] 1 0)
      (rowNormsersic cm0 [1, (7 : ℚ)])
      (List.getD [1, (7 : ℚ)] 0 0 * List.getD [1, (7 : ℚ)] 1 0)
      (by simp only [List.getD_cons_zero, List.getD_cons_succ]; norm_num)
    rw [show (seedState ext7 uconstOne neEx cm0 [1, (7 : ℚ)]).odfrac
        = (massesAt ext7 uconstOne neEx cm0 (List.getD [1, (7 : ℚ)] 0 0)
          (List.getD [1, (7 : ℚ)] 1 0) (rowNormsersic cm0 [1, (7 : ℚ)])
          (List.getD [1, (7 : ℚ)] 0 0 * List.getD [1, (7 : ℚ)] 1 0)).odfrac from rfl, hv]
    norm_num [ext7, extZero]
  · intro k hk
    have hrpos : (0 : ℚ)
        < ((pyInt (List.getD [1, (7 : ℚ)] 0 0 * List.getD [1, (7 : ℚ)] 1 0) + k : ℤ) : ℚ) := by
      rw [hpy]
      push_cast
      positivity
    have hv := ext7_odfrac (List.getD [1, (7 : ℚ)] 0 0) (List.getD [1, (7 : ℚ)] 1 0)
      (rowNormsersic cm0 [1, (7 : ℚ)])
      (((pyInt (List.getD [1, (7 : ℚ)] 0 0 * List.getD [1, (7 : ℚ)] 1 0) + k : ℤ) : ℚ)) hrpos
    rw [show (probeState ext7 uconstOne neEx cm0 [1, (7 : ℚ)]
        (pyInt (List.getD [1, (7 : ℚ)] 0 0 * List.getD [1, (7 : ℚ)] 1 0) + k)).odfrac
        = (massesAt ext7 uconstOne neEx cm0 (List.getD [1, (7 : ℚ)] 0 0)
          (List.getD [1, (7 : ℚ)] 1 0) (rowNormsersic cm0 [1, (7 : ℚ)])
          (((pyInt (List.getD [1, (7 : ℚ)] 0 0 * List.getD [1, (7 : ℚ)] 1 0) + k : ℤ) : ℚ))).odfrac
        from rfl, hv]
    norm_num [ext7, extZero]

/-! ### C9: the percentile summary of samples_results -/

/-- The zip/map percentile pipeline equals the per-column summary triple:
the codomain of `quantityTriples` is one `(median, p84−median, median−p16)`
triple per column. -/
theorem quantityTriples_eq (m : List (List ℚ)) :
    quantityTriples m
      = (List.range (m.headD []).length).map (fun j => specTriple (col m j)) := by
  unfold quantityTriples pctRow
  rw [List.zip_map', List.zip_map', List.map_map]
  rfl

/-- C9: for every non-empty, rectangular sample set (2 or 3 parameter
columns according to the stellar-mass flag) and non-empty 5-column derived
matrix, `samples_results` succeeds and reports, for each quantity, the
triple `(median, 84th − median, median − 16th)` of that quantity's column
under the linear-interpolation percentile; `c`, `rs`, `rdelta`, `mdelta`,
`mdm`, `mgas` are always present, and `normsersic`, `mstars` exactly when
stellar mass is counted. -/
theorem C9_samples_results (samples samples_aux : List (List ℚ)) (cluster : ClusterMeta)
    (hcount : cluster.count_mstar = 0 ∨ cluster.count_mstar = 1)
    (hne : samples ≠ [])
    (hrows : ∀ row ∈ samples, row.length = (if cluster.count_mstar = 1 then 3 else 2))
    (hauxne : samples_aux ≠ [])
    (hauxrows : ∀ row ∈ samples_aux, row.length = 5) :
    ∃ res : McmcResults,
      samples_results samples samples_aux cluster = some res
      ∧ res.c = specTriple (col samples 0)
      ∧ res.rs = specTriple (col samples 1)
      ∧ res.rdelta = specTriple (col samples_aux 0)
      ∧ res.mdelta = specTriple (col samples_aux 1)
      ∧ res.mdm = specTriple (col samples_aux 2)
      ∧ res.mgas = specTriple (col samples_aux 4)
      ∧ res.normsersic = (if cluster.count_mstar = 1
          then some (specTriple (col samples 2)) else none)
      ∧ res.mstars = (if cluster.count_mstar = 1
          then some (specTriple (col samples_aux 3)) else none) := by
  have hauxlen : (samples_aux.headD []).length = 5 := by
    rcases samples_aux with _ | ⟨a0, atl⟩
    · exact absurd rfl hauxne
    · exact hauxrows a0 (List.mem_cons_self a0 atl)
  have hqa : quantityTriples samples_aux
      = [specTriple (col samples_aux 0), specTriple (col samples_aux 1),
         specTriple (col samples_aux 2), specTriple (col samples_aux 3),
         specTriple (col samples_aux 4)] := by
    rw [quantityTriples_eq, hauxlen]
    rfl
  rcases hcount with hc0 | hc1
  · have hlen : (samples.headD []).length = 2 := by
      rcases samples with _ | ⟨s0, stl⟩
      · exact absurd rfl hne
      · have h := hrows s0 (List.mem_cons_self s0 stl)
        rw [hc0] at h
        simpa using h
    have hqs : quantityTriples samples
        = [specTriple (col samples 0), specTriple (col samples 1)] := by
      rw [quantityTriples_eq, hlen]
      rfl
    refine ⟨McmcResults.mk (specTriple (col samples 0)) (specTriple (col samples 1))
        (specTriple (col samples_aux 0)) (specTriple (col samples_aux 1))
        (specTriple (col samples_aux 2)) (specTriple (col samples_aux 4))
        none none, ?_, rfl, rfl, rfl, rfl, rfl, rfl, ?_, ?_⟩
    · simp [samples_results, hc0, hqs, hqa]
    · simp [hc0]
    · simp [hc0]
  · have hlen : (samples.headD []).length = 3 := by
      rcases samples with _ | ⟨s0, stl⟩
      · exact absurd rfl hne
      · have h := hrows s0 (List.mem_cons_self s0 stl)
        rw [hc1] at h
        simpa using h
    have hqs : quantityTriples samples
        = [specTriple (col samples 0), specTriple (col samples 1),
           specTriple (col samples 2)] := by
      rw [quantityTriples_eq, hlen]
      rfl
    refine ⟨McmcResults.mk (specTriple (col samples 0)) (specTriple (col samples 1))
        (specTriple (col samples_aux 0)) (specTriple (col samples_aux 1))
        (specTriple (col samples_aux 2)) (specTriple (col samples_aux 4))
        (some (specTriple (col samples 2)))
        (some (specTriple (col samples_aux 3))), ?_, rfl, rfl, rfl, rfl, rfl, rfl, ?_, ?_⟩
    · simp [samples_results, hc1, hqs, hqa]
    · simp [hc1]
    · simp [hc1]

/-- Witness for C9: a single sample with two parameters and one derived
row. -/
theorem C9_samples_results_witness :
    ∃ res : McmcResults,
      samples_results [[7, 8]] [[1, 2, 3, 4, 5]] cm0 = some res
      ∧ res.c = specTriple (col [[7, 8]] 0)
      ∧ res.rs = specTriple (col [[7, 8]] 1)
      ∧ res.rdelta = specTriple (col [[1, 2, 3, 4, 5]] 0)
      ∧ res.mdelta = specTriple (col [[1, 2, 3, 4, 5]] 1)
      ∧ res.mdm = specTriple (col [[1, 2, 3, 4, 5]] 2)
      ∧ res.mgas = specTriple (col [[1, 2, 3, 4, 5]] 4)
      ∧ res.normsersic = (if cm0.count_mstar = 1
          then some (specTriple (col [[7, 8]] 2)) else none)
      ∧ res.mstars = (if cm0.count_mstar = 1
          then some (specTriple (col [[1, 2, 3, 4, 5]] 3)) else none) :=
  C9_samples_results [[7, 8]] [[1, 2, 3, 4, 5]] cm0 (Or.inl rfl) (by decide)
    (by decide) (by decide) (by decide)
